import Mathlib

/-!
Shallow embedding of the network-analysis layer of the social-network-analysis
application (React/TypeScript frontend plus the spec of its analysis engine):
metric formulas, graph builders, view filtering, snapshot comparison, and the
link-prediction paths, together with proofs of the properties stated about them.

Conventions used throughout:
* JavaScript numbers are modelled by `ℚ`; a division whose denominator is zero
  (which yields `NaN` or `±Infinity` in JavaScript) is modelled by `Option ℚ`
  returning `none`.
* Randomness (`Math.random()`) is modelled by explicitly passing a stream of
  draws; properties quantify over all streams.
* Node ids that the source renders as decimal template strings are kept as the
  underlying numbers where the rendering is injective.
-/

namespace SNA

/-- Model of a JavaScript division `a / b`: a zero denominator produces `NaN`
(for `0/0`) or `±Infinity`, i.e. no finite defined value, collapsed to `none`. -/
def jsDiv (a b : ℚ) : Option ℚ := if b = 0 then none else some (a / b)

/-- Model of `Number.prototype.toFixed(d)` followed by re-parsing: rounding to
`d` decimal digits (half-up; the code applies it to values where the sign
convention of ties does not matter). -/
def roundTo (d : Nat) (q : ℚ) : ℚ := (⌊q * 10 ^ d + 1 / 2⌋ : ℚ) / 10 ^ d

/-- `calculateDensity` from the Dashboard (`part_004`, lines 394–399): density
is `0` when `nodeCount ≤ 1`, otherwise `2·E / (n·(n−1))`. -/
def calculateDensity (nodeCount edgeCount : Nat) : ℚ :=
  if nodeCount ≤ 1 then 0
  else (2 * edgeCount : ℚ) / ((nodeCount : ℚ) * ((nodeCount : ℚ) - 1))

/-- The metrics object assembled by the `networkApi.getNetwork` fallback
(`part_000`, lines 48–53) and by the `NetworkView` metrics fallback
(`NetworkView.tsx`, lines 281–287 and 317–322). -/
structure Metrics where
  node_count : Nat
  edge_count : Nat
  density : Option ℚ
  average_degree : Option ℚ
deriving DecidableEq

/-- The unguarded metric formulas of those fallbacks:
`density = 2E/(n(n−1))` and `average_degree = 2E/n`, with no `n ≤ 1` guard. -/
def fallbackMetrics (nodeCount edgeCount : Nat) : Metrics :=
  { node_count := nodeCount
    edge_count := edgeCount
    density := jsDiv (2 * edgeCount) ((nodeCount : ℚ) * ((nodeCount : ℚ) - 1))
    average_degree := jsDiv (2 * edgeCount) (nodeCount : ℚ) }

/-- A node record of the API sample networks (`part_000`): `{id, name, group}`. -/
structure ApiNode where
  id : String
  name : String
  group : Int
deriving DecidableEq

/-- An edge record of the API sample networks (`part_000`):
`{source, target, weight}`. -/
structure ApiEdge where
  source : String
  target : String
  weight : ℚ
deriving DecidableEq

/-- A network payload: node list plus edge list. -/
structure NetworkData where
  nodes : List ApiNode
  edges : List ApiEdge
deriving DecidableEq

/-- Two edges have the same unordered endpoints (either orientation). -/
def sameEndpoints (e₁ e₂ : ApiEdge) : Prop :=
  (e₁.source = e₂.source ∧ e₁.target = e₂.target) ∨
  (e₁.source = e₂.target ∧ e₁.target = e₂.source)

instance (e₁ e₂ : ApiEdge) : Decidable (sameEndpoints e₁ e₂) := by
  unfold sameEndpoints; infer_instance

/-- The graph invariants of §3 of the spec: unique node ids, no self-loop,
no multi-edge (in either orientation), and edge endpoints referencing
existing nodes. -/
structure IsSimpleNetwork (d : NetworkData) : Prop where
  idsNodup : (d.nodes.map ApiNode.id).Nodup
  noSelfLoop : ∀ e ∈ d.edges, e.source ≠ e.target
  noMultiEdge : d.edges.Pairwise (fun e₁ e₂ => ¬ sameEndpoints e₁ e₂)
  endpointsValid : ∀ e ∈ d.edges,
    e.source ∈ d.nodes.map ApiNode.id ∧ e.target ∈ d.nodes.map ApiNode.id

/-- Both orientations of every edge, as ordered id pairs. -/
def edgeKeys (es : List ApiEdge) : List (String × String) :=
  es.flatMap (fun e => [(e.source, e.target), (e.target, e.source)])

/-- The triangle-minus-one-edge scenario of §8 of the spec: nodes `A`, `B`,
`C` with edges `A–B` and `B–C` only. -/
def triangleData : NetworkData :=
  ⟨[⟨"A", "A", 1⟩, ⟨"B", "B", 1⟩, ⟨"C", "C", 1⟩],
   [⟨"A", "B", 1⟩, ⟨"B", "C", 1⟩]⟩

/-- `toggleSnapshotSelection` from the NetworkComparison page (`part_003`,
lines 295–310): clicking a selected id removes it; clicking a new id appends
while fewer than 2 are selected, and otherwise keeps the first selection and
replaces the second (`[prev[0], id]`). The `[]` arm of the final `match` is
unreachable since that branch requires `prev.length ≥ 2`. -/
def toggleSnapshotSelection (prev : List String) (id : String) : List String :=
  if id ∈ prev then prev.filter (fun s => s ≠ id)
  else if prev.length < 2 then prev ++ [id]
  else
    match prev with
    | [] => [id]
    | p0 :: _ => [p0, id]

/-- A snapshot card of the NetworkComparison page (`part_003`): metadata the
comparison is computed from. -/
structure Snapshot where
  id : String
  name : String
  date : String
  nodeCount : Nat
  edgeCount : Nat
  density : ℚ
  avgDegree : ℚ
deriving DecidableEq

/-- The `structuralChanges` estimate of `generateComparisonData`; fields are
`Option ℤ` because a zero snapshot denominator makes the underlying ratios
NaN, which then propagates through `Math.floor` and subtraction. -/
structure StructuralChanges where
  commonNodes : Option ℤ
  newNodes : Option ℤ
  removedNodes : Option ℤ
  commonEdges : Option ℤ
  newEdges : Option ℤ
  removedEdges : Option ℤ
deriving DecidableEq

/-- The comparison payload set by `generateComparisonData` (`part_003`). -/
structure ComparisonData where
  nodeGrowth : ℤ
  nodeGrowthPercent : Option ℚ
  edgeGrowth : ℤ
  edgeGrowthPercent : Option ℚ
  densityChange : ℚ
  avgDegreeChange : ℚ
  newCommunities : ℤ
  topGrowingCommunities : List (String × ℤ)
  nodesByGroup : List (String × ℤ × ℤ)
  structuralChanges : StructuralChanges
deriving DecidableEq

/-- The simulated `topGrowingCommunities` entries of `generateComparisonData`
(`part_003`, lines 435–439): each growth is `Math.floor(Math.random()·k + 5)`. -/
def topGrowingSim (rand : Nat → ℚ) : List (String × ℤ) :=
  [("技术", ⌊rand 0 * 25 + 5⌋), ("市场", ⌊rand 1 * 20 + 5⌋), ("研发", ⌊rand 2 * 15 + 5⌋)]

/-- The `nodesByGroup` table of `generateComparisonData` (`part_003`,
lines 451–457): fixed fractions of each snapshot's node count, floored. -/
def nodesByGroupSim (s1 s2 : Snapshot) : List (String × ℤ × ℤ) :=
  [("技术组", ⌊(s1.nodeCount : ℚ) * (3/10)⌋, ⌊(s2.nodeCount : ℚ) * (3/10)⌋),
   ("市场组", ⌊(s1.nodeCount : ℚ) * (25/100)⌋, ⌊(s2.nodeCount : ℚ) * (25/100)⌋),
   ("研发组", ⌊(s1.nodeCount : ℚ) * (2/10)⌋, ⌊(s2.nodeCount : ℚ) * (2/10)⌋),
   ("设计组", ⌊(s1.nodeCount : ℚ) * (15/100)⌋, ⌊(s2.nodeCount : ℚ) * (15/100)⌋),
   ("运营组", ⌊(s1.nodeCount : ℚ) * (1/10)⌋, ⌊(s2.nodeCount : ℚ) * (1/10)⌋)]

/-- The core of `generateComparisonData` (`part_003`, lines 401–466), applied
to the two snapshots already looked up for the current selection. `rand i`
models the value of the `i`-th `Math.random()` call (a number in `[0,1)`). -/
def generateComparisonData (s1 s2 : Snapshot) (rand : Nat → ℚ) : ComparisonData :=
  let nodeGrowth : ℤ := (s2.nodeCount : ℤ) - (s1.nodeCount : ℤ)
  let nodeGrowthPercent :=
    (jsDiv (nodeGrowth : ℚ) (s1.nodeCount : ℚ)).map (fun q => roundTo 1 (q * 100))
  let edgeGrowth : ℤ := (s2.edgeCount : ℤ) - (s1.edgeCount : ℤ)
  let edgeGrowthPercent :=
    (jsDiv (edgeGrowth : ℚ) (s1.edgeCount : ℚ)).map (fun q => roundTo 1 (q * 100))
  let densityChange := roundTo 4 (s2.density - s1.density)
  let avgDegreeChange := roundTo 2 (s2.avgDegree - s1.avgDegree)
  let commonNodeRatio :=
    (jsDiv |(nodeGrowth : ℚ)| (2 * s1.nodeCount : ℚ)).map (fun q => min (9/10 : ℚ) (1 - q))
  let commonNodes := commonNodeRatio.map (fun r => ⌊(s1.nodeCount : ℚ) * r⌋)
  let commonEdgeRatio :=
    (jsDiv |(edgeGrowth : ℚ)| (2 * s1.edgeCount : ℚ)).map (fun q => min (85/100 : ℚ) (1 - q))
  let commonEdges := commonEdgeRatio.map (fun r => ⌊(s1.edgeCount : ℚ) * r⌋)
  let newNodes : Option ℤ :=
    if 0 ≤ nodeGrowth then some nodeGrowth
    else commonNodes.map (fun c => (s1.nodeCount : ℤ) - c)
  let removedNodes : Option ℤ :=
    if 0 ≤ nodeGrowth then commonNodes.map (fun c => (s1.nodeCount : ℤ) - c)
    else some (-nodeGrowth)
  let newEdges : Option ℤ :=
    if 0 ≤ edgeGrowth then some edgeGrowth
    else commonEdges.map (fun c => (s1.edgeCount : ℤ) - c)
  let removedEdges : Option ℤ :=
    if 0 ≤ edgeGrowth then commonEdges.map (fun c => (s1.edgeCount : ℤ) - c)
    else some (-edgeGrowth)
  { nodeGrowth := nodeGrowth
    nodeGrowthPercent := nodeGrowthPercent
    edgeGrowth := edgeGrowth
    edgeGrowthPercent := edgeGrowthPercent
    densityChange := densityChange
    avgDegreeChange := avgDegreeChange
    newCommunities := ⌊rand 3 * 2⌋ + 1
    topGrowingCommunities := topGrowingSim rand
    nodesByGroup := nodesByGroupSim s1 s2
    structuralChanges :=
      { commonNodes := commonNodes
        newNodes := newNodes
        removedNodes := removedNodes
        commonEdges := commonEdges
        newEdges := newEdges
        removedEdges := removedEdges } }

/-- The hard-coded community snapshot card of the NetworkComparison page
(`part_003`, line 282); the `date` field there is the current date and is
never read by the comparison, so a fixed stand-in string is used. -/
def communitySnapshot : Snapshot :=
  ⟨"community", "Community Network", "2023-01-01", 197, 2756, 143/1000, 28⟩

namespace NetworkView

/-- A node of `NetworkView.tsx` (`interface Node`): `{id, name, group}`. -/
structure Node where
  id : String
  name : String
  group : Int
deriving DecidableEq

/-- After d3 runs a simulation, an edge endpoint may hold the node object
instead of its id string; the code reads
`typeof edge.source === 'string' ? edge.source : edge.source.id`. -/
inductive Endpoint where
  | str : String → Endpoint
  | node : Node → Endpoint
deriving DecidableEq

/-- `typeof x === 'string' ? x : x.id`. -/
def Endpoint.endId : Endpoint → String
  | .str s => s
  | .node n => n.id

/-- An edge of `NetworkView.tsx` (`interface Edge`). -/
structure Edge where
  source : Endpoint
  target : Endpoint
  weight : ℚ
deriving DecidableEq

/-- The network data held by the view: optional id, nodes and edges. -/
structure NetworkData where
  id : Option String
  nodes : List Node
  edges : List Edge
deriving DecidableEq

/-- The `NetworkFiltersState` of the view. -/
structure FiltersState where
  showGroups : List Int
  minEdgeWeight : ℚ
  minNodeDegree : Option ℤ
  maxNodeDegree : Option ℤ
  showIsolatedNodes : Bool
deriving DecidableEq

/-- The `degreeCounts` map of the filter effect (`NetworkView.tsx`,
lines 546–553): each edge increments the count of its source id and of its
target id. -/
def degreeOf (es : List Edge) (nid : String) : Nat :=
  (es.filter (fun e => e.source.endId = nid)).length +
  (es.filter (fun e => e.target.endId = nid)).length

/-- One node's pass through the degree filters (`NetworkView.tsx`,
lines 558–577): isolated nodes are dropped unless shown, and the optional
min/max degree bounds are enforced. -/
def passesDegree (filters : FiltersState) (edges1 : List Edge) (n : Node) : Bool :=
  let deg : ℤ := (degreeOf edges1 n.id : ℤ)
  (decide (deg ≠ 0) || filters.showIsolatedNodes) &&
  (match filters.minNodeDegree with | none => true | some m => decide (m ≤ deg)) &&
  (match filters.maxNodeDegree with | none => true | some m => decide (deg ≤ m))

/-- Stage 1 of the filter effect (`NetworkView.tsx`, lines 533–538): nodes
filtered by group, applied only when a strict subset of all groups is shown. -/
def groupFiltered (data : NetworkData) (filters : FiltersState)
    (optionGroups : List Int) : List Node :=
  if filters.showGroups.length < optionGroups.length then
    data.nodes.filter (fun n => decide (n.group ∈ filters.showGroups))
  else data.nodes

/-- Stage 2 (`NetworkView.tsx`, lines 540–543): edges filtered by weight. -/
def weightFiltered (data : NetworkData) (filters : FiltersState) : List Edge :=
  data.edges.filter (fun e => decide (filters.minEdgeWeight ≤ e.weight))

/-- Stage 3 (`NetworkView.tsx`, lines 555–577): ids of the nodes that pass
the degree filters, degrees taken over the weight-filtered edges. -/
def validIds (data : NetworkData) (filters : FiltersState)
    (optionGroups : List Int) : List String :=
  ((groupFiltered data filters optionGroups).filter
    (passesDegree filters (weightFiltered data filters))).map Node.id

/-- The filter-application effect of `NetworkView.tsx` (lines 523–591): clone
the data, filter nodes by group, filter edges by weight, keep nodes passing
the degree filters, and finally keep only edges whose two endpoints
survived. -/
def applyFilters (data : NetworkData) (filters : FiltersState)
    (optionGroups : List Int) : NetworkData :=
  { id := data.id
    nodes := (groupFiltered data filters optionGroups).filter
      (fun n => decide (n.id ∈ validIds data filters optionGroups))
    edges := (weightFiltered data filters).filter (fun e =>
      decide (e.source.endId ∈ validIds data filters optionGroups) &&
      decide (e.target.endId ∈ validIds data filters optionGroups)) }

/-- A predicted link as pushed by the local generator of `handlePredictLinks`
(`NetworkView.tsx`, lines 880–886). -/
structure PredictionLink where
  source : String
  target : String
  probability : ℚ
  sourceNode : Node
  targetNode : Node
deriving DecidableEq

/-- The `existingEdges` set of `${sourceId}-${targetId}` keys, both
orientations (`NetworkView.tsx`, lines 853–859). -/
def existingEdgeKeys (es : List Edge) : List String :=
  es.flatMap (fun e => [e.source.endId ++ "-" ++ e.target.endId,
                        e.target.endId ++ "-" ++ e.source.endId])

/-- The distinct `group` values, ascending: JavaScript objects enumerate
integer-like keys in ascending numeric order, so `Object.values(nodesByGroup)`
walks the groups in that order. -/
def groupsOf (ns : List Node) : List Int :=
  ((ns.map Node.group).dedup).mergeSort (fun a b => decide (a ≤ b))

/-- The bucket `nodesByGroup[g]`, in node order. -/
def nodesInGroup (ns : List Node) (g : Int) : List Node :=
  ns.filter (fun n => decide (n.group = g))

/-- The `i < j` double loop over one group's node list
(`NetworkView.tsx`, lines 873–874). -/
def indexPairs : List Node → List (Node × Node)
  | [] => []
  | x :: xs => xs.map (fun y => (x, y)) ++ indexPairs xs

/-- The candidate-pushing loop (`NetworkView.tsx`, lines 878–888): a pair is
pushed only when its key is absent from the existing-edge keys, with
probability `Number((0.5 + Math.random()·0.4).toFixed(2))`; `prob k` models
the `Math.random()` draw of the `k`-th pushed candidate. -/
def buildLinks (keys : List String) (prob : Nat → ℚ) :
    List (Node × Node) → Nat → List PredictionLink
  | [], _ => []
  | (a, b) :: rest, k =>
    if (a.id ++ "-" ++ b.id) ∈ keys then buildLinks keys prob rest k
    else ⟨a.id, b.id, roundTo 2 (1/2 + prob k * (4/10)), a, b⟩ ::
      buildLinks keys prob rest (k + 1)

/-- `possibleLinks`: all same-group non-existing pairs, in group order. -/
def possibleLinks (data : NetworkData) (prob : Nat → ℚ) : List PredictionLink :=
  buildLinks (existingEdgeKeys data.edges) prob
    ((groupsOf data.nodes).flatMap (fun g => indexPairs (nodesInGroup data.nodes g))) 0

/-- Sort descending by probability (`(a,b) => b.probability - a.probability`,
a stable sort in V8, modelled by the stable `mergeSort`) and keep the top 10
(`NetworkView.tsx`, lines 892–894). -/
def topPredictions (data : NetworkData) (prob : Nat → ℚ) : List PredictionLink :=
  ((possibleLinks data prob).mergeSort
    (fun a b => decide (b.probability ≤ a.probability))).take 10

/-- The local fallback branch of `handlePredictLinks` (`NetworkView.tsx`,
lines 851–900): with node data present it publishes the sorted top-10
candidates; with no nodes it sets a prediction error message instead. -/
def handlePredictLocal (data : NetworkData) (prob : Nat → ℚ) :
    Except String (List PredictionLink) :=
  if 0 < data.nodes.length then .ok (topPredictions data prob)
  else .error "无法生成链接预测，缺少网络数据"

end NetworkView

/-- A mock prediction of the `networkApi.predictLinks` catch fallback
(`part_000`, lines 81–85). -/
structure MockPrediction where
  source : String
  target : String
  probability : ℚ
deriving DecidableEq

/-- `Math.floor(Math.random()*30) + 1`, modelling the random draw `s` by its
residue mod 30. -/
def draw30 (s : Nat) : Nat := s % 30 + 1

/-- The `while (source === target)` re-rolling of the mock fallback
(`part_000`, lines 76–79): consume draws until one differs from `source`.
An exhausted stream models the probability-zero case of the JavaScript loop
never terminating, and aborts generation. -/
def drawTargetNe (source : Nat) : List Nat → Option (Nat × List Nat)
  | [] => none
  | s :: rest =>
    if draw30 s = source then drawTargetNe source rest else some (draw30 s, rest)

/-- The mock link-prediction fallback of `networkApi.predictLinks`
(`part_000`, lines 70–92): `topK` random pairs, self-loops avoided by
re-rolling, probabilities `Number(Math.random().toFixed(2))`. The graph is
never consulted. Stream exhaustion (a model artifact) stops early. -/
def mockPredictLinks : Nat → List Nat → List ℚ → List MockPrediction
  | 0, _, _ => []
  | _+1, [], _ => []
  | k+1, s :: rest, probs =>
    let source := draw30 s
    match drawTargetNe source rest with
    | none => []
    | some (target, rest2) =>
      match probs with
      | [] => []
      | p :: probs2 =>
        ⟨toString source, toString target, roundTo 2 p⟩ ::
          mockPredictLinks k rest2 probs2

/-- A 2-node network whose only edge joins ids "1" and "2", used to exhibit
the mock fallback returning an already-existing edge. -/
def mockPairNetwork : NetworkView.NetworkData :=
  ⟨some "sample", [⟨"1", "n1", 1⟩, ⟨"2", "n2", 1⟩],
   [⟨NetworkView.Endpoint.str "1", NetworkView.Endpoint.str "2", 1⟩]⟩

/-- A single-node network with no edge. -/
def oneNodeNetwork : NetworkView.NetworkData :=
  ⟨some "x", [⟨"1", "n", 1⟩], []⟩

/-- Whether ids `x` and `y` are joined by an edge in either orientation. -/
def adjacent (d : NetworkData) (x y : String) : Bool :=
  d.edges.any (fun e => (e.source = x && e.target = y) || (e.source = y && e.target = x))

/-- The neighbor ids of `x`, in node order. -/
def neighborsOf (d : NetworkData) (x : String) : List String :=
  (d.nodes.map ApiNode.id).filter (fun y => adjacent d x y)

/-- The common-neighbors score of a candidate pair. -/
def commonNeighborsScore (d : NetworkData) (x y : String) : Nat :=
  ((neighborsOf d x).filter (fun z => decide (z ∈ neighborsOf d y))).length

/-- A ranked prediction of the engine's contract (§4.5). -/
structure SpecPrediction where
  source : String
  target : String
  score : Nat
deriving DecidableEq

/-- Strict lexicographic comparison of code-point lists. -/
def lexLt : List Nat → List Nat → Bool
  | _, [] => false
  | [], _ :: _ => true
  | a :: as, b :: bs => if a < b then true else if b < a then false else lexLt as bs

/-- Ascending string order by code points, the deterministic tie-break order
of §4.5. -/
def strLt (a b : String) : Bool := lexLt (a.data.map Char.toNat) (b.data.map Char.toNat)

/-- Non-strict version of `strLt`. -/
def strLe (a b : String) : Bool := strLt a b || a == b

/-- Modelled from the spec: the candidate pairs of `predictLinks` (§4.5) —
the backend Link Predictor is not under `src/` — are the currently
non-adjacent node pairs, no self-pairs and no existing edges, each unordered
pair taken once with `source < target`. -/
def candidatePairs (d : NetworkData) : List (String × String) :=
  let ids := d.nodes.map ApiNode.id
  (ids.flatMap (fun x => ids.map (fun y => (x, y)))).filter
    (fun p => strLt p.1 p.2 && !(adjacent d p.1 p.2))

/-- Modelled from the spec: `predictLinks(graph, k)` (§4.5) with the
common-neighbors heuristic scorer — the backend implementation is not under
`src/` — returns the candidate pairs scored by common neighbors, sorted
descending by score with ties broken by ascending `(source, target)`,
truncated to length `k`. -/
def specPredictLinks (d : NetworkData) (k : Nat) : List SpecPrediction :=
  (((candidatePairs d).map
      (fun p => SpecPrediction.mk p.1 p.2 (commonNeighborsScore d p.1 p.2))).mergeSort
    (fun a b => decide (b.score < a.score) ||
      (decide (a.score = b.score) &&
        (strLt a.source b.source ||
         (a.source == b.source && strLe a.target b.target))))).take k

/-- An edge produced by the sample-network builders of `part_000`; node ids
there are the decimal strings `${i}`, rendered injectively, so they are
modelled by the numbers themselves. -/
structure GenEdge where
  source : Nat
  target : Nat
  weight : Nat
deriving DecidableEq

/-- The duplicate-edge check of the builders (`part_000`, lines 274–277 and
331–334): the pair exists already in either orientation. -/
def genEdgeExists (es : List GenEdge) (s t : Nat) : Bool :=
  es.any (fun e => (e.source == s && e.target == t) || (e.source == t && e.target == s))

/-- No edge is a self-loop. -/
def NoSelfLoopE (es : List GenEdge) : Prop := ∀ e ∈ es, e.source ≠ e.target

/-- No unordered pair of endpoints occurs twice. -/
def NoMultiEdgeE (es : List GenEdge) : Prop :=
  es.Pairwise (fun a b =>
    ¬((a.source = b.source ∧ a.target = b.target) ∨
      (a.source = b.target ∧ a.target = b.source)))

/-- `Math.floor(Math.random()*n) + 1` for the draw `s`. -/
def drawId (n : Nat) (s : Nat) : Nat := s % n + 1

/-- The `while (source === target)` re-roll of `generateRandomNetwork`
(`part_000`, lines 325–328): consume draws until one differs from `source`;
an exhausted stream models the probability-zero divergence of the loop. -/
def findOtherId (n source : Nat) : List Nat → Option (Nat × List Nat)
  | [] => none
  | s :: rest =>
    if drawId n s = source then findOtherId n source rest
    else some (drawId n s, rest)

/-- The edge loop of `generateRandomNetwork` (`part_000`, lines 319–343):
`nodeCount*5` iterations, each drawing a source id, then a distinct target
id, then — only when pushing — a weight, and pushing the edge unless it
already exists in either orientation. Stream exhaustion stops the build. -/
def randomEdgesLoop (n : Nat) : Nat → List Nat → List GenEdge → List GenEdge
  | 0, _, acc => acc
  | _ + 1, [], acc => acc
  | k + 1, s :: rest, acc =>
    let source := drawId n s
    match findOtherId n source rest with
    | none => acc
    | some (target, rest2) =>
      match rest2 with
      | [] => acc
      | w :: rest3 =>
        if genEdgeExists acc source target then randomEdgesLoop n k (w :: rest3) acc
        else randomEdgesLoop n k rest3 (acc ++ [⟨source, target, w % 3 + 1⟩])

/-- `generateRandomNetwork`'s edge list for a given draw stream. -/
def generateRandomNetworkEdges (nodeCount : Nat) (stream : List Nat) : List GenEdge :=
  randomEdgesLoop nodeCount (nodeCount * 5) stream []

/-- A node of `generateCommunityNetwork` (`part_000`). -/
structure GenNode where
  id : Nat
  group : ℤ
deriving DecidableEq

/-- The node list of `generateCommunityNetwork` (`part_000`, lines 233–240):
node `i` (1-based) gets group `⌊(i−1)/(nodeCount/communityCount)⌋ + 1`.
(For `communityCount = 0` JavaScript divides by `Infinity`; the rational
model differs only in the group tag, which no claim inspects.) -/
def communityNodes (nodeCount communityCount : Nat) : List GenNode :=
  (List.range nodeCount).map (fun i =>
    ⟨i + 1, ⌊(i : ℚ) / ((nodeCount : ℚ) / (communityCount : ℚ))⌋ + 1⟩)

/-- `array[Math.floor(Math.random()*array.length)]` for the draw `s`. -/
def pickNode (l : List GenNode) (s : Nat) : Option GenNode := l.get? (s % l.length)

/-- The target pool of one `generateCommunityNetwork` iteration (`part_000`,
lines 249–269): with the 80% coin, the same-community nodes other than the
source (all nodes when that pool is empty); otherwise the other-community
nodes (all nodes when empty). -/
def communityPool (nodes : List GenNode) (src : GenNode) (c : Nat) : List GenNode :=
  if c % 10 < 8 then
    let same := nodes.filter (fun nd =>
      decide (nd.group = src.group) && decide (nd.id ≠ src.id))
    if same.isEmpty then nodes else same
  else
    let other := nodes.filter (fun nd => decide (nd.group ≠ src.group))
    if other.isEmpty then nodes else other

/-- The edge loop of `generateCommunityNetwork` (`part_000`, lines 243–287):
each iteration draws a source node, a branch coin (80% same-community), and a
target from the corresponding pool, then pushes the edge only when it is not
a self-pair and does not already exist in either orientation; the weight draw
happens only on push. Stream exhaustion stops the build. -/
def communityEdgesLoop (nodes : List GenNode) :
    Nat → List Nat → List GenEdge → List GenEdge
  | 0, _, acc => acc
  | k + 1, s :: c :: t :: rest, acc =>
    match pickNode nodes s with
    | none => acc
    | some src =>
      match pickNode (communityPool nodes src c) t with
      | none => acc
      | some tgt =>
        if src.id = tgt.id then communityEdgesLoop nodes k rest acc
        else if genEdgeExists acc src.id tgt.id then communityEdgesLoop nodes k rest acc
        else
          match rest with
          | [] => acc
          | w :: rest2 =>
            communityEdgesLoop nodes k rest2 (acc ++ [⟨src.id, tgt.id, w % 3 + 1⟩])
  | _ + 1, _, acc => acc

/-- `generateCommunityNetwork`'s edge list for a given draw stream. -/
def generateCommunityNetworkEdges (nodeCount communityCount : Nat)
    (stream : List Nat) : List GenEdge :=
  communityEdgesLoop (communityNodes nodeCount communityCount) (nodeCount * 3) stream []

/-- The 20 hard-coded edges of the small sample network
(`generateSampleNetwork`, `part_000`, lines 189–210). -/
def sampleNetworkEdges : List GenEdge :=
  [⟨1, 2, 3⟩, ⟨1, 3, 2⟩, ⟨2, 3, 2⟩, ⟨4, 5, 2⟩, ⟨4, 6, 1⟩, ⟨5, 6, 3⟩,
   ⟨7, 8, 1⟩, ⟨7, 9, 2⟩, ⟨8, 9, 3⟩, ⟨10, 11, 2⟩, ⟨10, 12, 1⟩, ⟨11, 12, 3⟩,
   ⟨13, 14, 2⟩, ⟨13, 15, 1⟩, ⟨14, 15, 3⟩, ⟨1, 4, 1⟩, ⟨4, 7, 1⟩, ⟨7, 10, 1⟩,
   ⟨10, 13, 1⟩, ⟨3, 6, 1⟩]

/-- Modelled from the spec: `assignId` (§4.2) of the Identity & Anonymization
component — the backend is not under `src/` — is a deterministic one-way
digest of the raw external identifier, modelled by a 32-bit polynomial
rolling hash over the characters. -/
def assignId (raw : String) : Nat :=
  raw.foldl (fun h c => (h * 31 + c.toNat) % 4294967296) 5381

/-- A raw node record of the ingestion boundary (§6). -/
structure RawNode where
  externalId : String
  label : String
deriving DecidableEq

/-- A raw edge record of the ingestion boundary (§6). -/
structure RawEdge where
  sourceExternalId : String
  targetExternalId : String
  weight : ℚ
deriving DecidableEq

/-- The construction errors of §4.1/§7. -/
inductive GraphError where
  | duplicateNodeId
  | danglingEdge
  | selfLoop
  | negativeWeight
deriving DecidableEq

/-- A node of the constructed graph, keyed by stable id. -/
structure BuiltNode where
  id : Nat
  label : String
deriving DecidableEq

/-- An edge of the constructed graph, endpoints as stable ids. -/
structure BuiltEdge where
  source : Nat
  target : Nat
  weight : ℚ
deriving DecidableEq

/-- A constructed graph. -/
structure BuiltGraph where
  nodes : List BuiltNode
  edges : List BuiltEdge
deriving DecidableEq

/-- Modelled from the spec: `buildGraph(rawNodes, rawEdges)` (§4.1) — the
backend Graph Model is not under `src/` — applies `assignId`, fails
atomically with `DuplicateNodeId`, `DanglingEdge`, `SelfLoop` or
`NegativeWeight` (weight ≤ 0), and otherwise returns the whole graph. -/
def buildGraph (rawNodes : List RawNode) (rawEdges : List RawEdge) :
    Except GraphError BuiltGraph :=
  let ids := rawNodes.map (fun n => assignId n.externalId)
  if ¬ ids.Nodup then .error .duplicateNodeId
  else if ¬ (∀ e ∈ rawEdges,
      assignId e.sourceExternalId ∈ ids ∧ assignId e.targetExternalId ∈ ids) then
    .error .danglingEdge
  else if ∃ e ∈ rawEdges, assignId e.sourceExternalId = assignId e.targetExternalId then
    .error .selfLoop
  else if ∃ e ∈ rawEdges, e.weight ≤ 0 then .error .negativeWeight
  else .ok ⟨rawNodes.map (fun n => ⟨assignId n.externalId, n.label⟩),
            rawEdges.map (fun e =>
              ⟨assignId e.sourceExternalId, assignId e.targetExternalId, e.weight⟩)⟩

/-- The expected one-node graph built from a single raw record. -/
def aliceGraph : BuiltGraph := ⟨[⟨assignId "alice", "Alice"⟩], []⟩

end SNA

namespace SNA

theorem length_edgeKeys (es : List ApiEdge) : (edgeKeys es).length = 2 * es.length := by
  induction es with
  | nil => rfl
  | cons e es ih => simp only [edgeKeys, List.flatMap_cons] at ih ⊢; simp [ih]; ring

theorem mem_edgeKeys {k : String × String} {es : List ApiEdge} :
    k ∈ edgeKeys es ↔ ∃ e ∈ es, k = (e.source, e.target) ∨ k = (e.target, e.source) := by
  simp [edgeKeys, List.mem_flatMap]

theorem nodup_edgeKeys {es : List ApiEdge}
    (h1 : ∀ e ∈ es, e.source ≠ e.target)
    (h2 : es.Pairwise (fun a b => ¬ sameEndpoints a b)) :
    (edgeKeys es).Nodup := by
  induction es with
  | nil => simp [edgeKeys]
  | cons e es ih =>
    have hse : e.source ≠ e.target := h1 e (List.mem_cons_self ..)
    obtain ⟨hhead, htail⟩ := List.pairwise_cons.mp h2
    have ihres := ih (fun a ha => h1 a (List.mem_cons_of_mem _ ha)) htail
    have hkeys : edgeKeys (e :: es) =
        (e.source, e.target) :: (e.target, e.source) :: edgeKeys es := rfl
    rw [hkeys, List.nodup_cons, List.nodup_cons]
    refine ⟨?_, ?_, ihres⟩
    · intro hmem
      rcases List.mem_cons.mp hmem with hpair | hrest
      · exact hse (congrArg Prod.fst hpair)
      · obtain ⟨e', he', hor⟩ := mem_edgeKeys.mp hrest
        refine hhead e' he' ?_
        rcases hor with hk | hk
        · exact Or.inl ⟨congrArg Prod.fst hk, congrArg Prod.snd hk⟩
        · exact Or.inr ⟨congrArg Prod.fst hk, congrArg Prod.snd hk⟩
    · intro hmem
      obtain ⟨e', he', hor⟩ := mem_edgeKeys.mp hmem
      refine hhead e' he' ?_
      rcases hor with hk | hk
      · exact Or.inr ⟨congrArg Prod.snd hk, congrArg Prod.fst hk⟩
      · exact Or.inl ⟨congrArg Prod.snd hk, congrArg Prod.fst hk⟩

/-- In a simple network, twice the edge count is at most `n² − n`: each edge
contributes two distinct ordered pairs of distinct existing node ids. -/
theorem two_mul_edges_le {d : NetworkData} (h : IsSimpleNetwork d) :
    2 * d.edges.length ≤ d.nodes.length * d.nodes.length - d.nodes.length := by
  classical
  have hnd : (edgeKeys d.edges).Nodup := nodup_edgeKeys h.noSelfLoop h.noMultiEdge
  have hsub : (edgeKeys d.edges).toFinset ⊆ ((d.nodes.map ApiNode.id).toFinset).offDiag := by
    intro k hk
    rw [List.mem_toFinset] at hk
    obtain ⟨e, he, hor⟩ := mem_edgeKeys.mp hk
    have hv := h.endpointsValid e he
    have hne := h.noSelfLoop e he
    rw [Finset.mem_offDiag]
    rcases hor with rfl | rfl
    · exact ⟨List.mem_toFinset.mpr hv.1, List.mem_toFinset.mpr hv.2, hne⟩
    · exact ⟨List.mem_toFinset.mpr hv.2, List.mem_toFinset.mpr hv.1, fun hst => hne hst.symm⟩
  have hcard : (edgeKeys d.edges).toFinset.card = 2 * d.edges.length := by
    rw [List.toFinset_card_of_nodup hnd, length_edgeKeys]
  have hidcard : ((d.nodes.map ApiNode.id).toFinset).card = d.nodes.length := by
    rw [List.toFinset_card_of_nodup h.idsNodup, List.length_map]
  have hle := Finset.card_le_card hsub
  rw [hcard, Finset.offDiag_card, hidcard] at hle
  exact hle

/-- In a simple network with `n ≥ 2` nodes, `(2E : ℚ) ≤ n·(n−1)`. -/
theorem two_mul_edges_le_rat {d : NetworkData} (h : IsSimpleNetwork d) :
    (2 * d.edges.length : ℚ) ≤ (d.nodes.length : ℚ) * ((d.nodes.length : ℚ) - 1) := by
  have hnat := two_mul_edges_le h
  have hsq : d.nodes.length ≤ d.nodes.length * d.nodes.length := by
    rcases Nat.eq_zero_or_pos d.nodes.length with h0 | h0
    · simp [h0]
    · exact Nat.le_mul_of_pos_left _ h0
  calc (2 * d.edges.length : ℚ)
      = ((2 * d.edges.length : ℕ) : ℚ) := by norm_cast
    _ ≤ ((d.nodes.length * d.nodes.length - d.nodes.length : ℕ) : ℚ) := by
        exact_mod_cast hnat
    _ = (d.nodes.length : ℚ) * ((d.nodes.length : ℚ) - 1) := by
        rw [Nat.cast_sub hsq]; push_cast; ring

/-- C1: amended. The Dashboard `calculateDensity` returns 0 when `n ≤ 1` and
lies in `[0,1]` on every simple network; but the `getNetwork`/`NetworkView`
fallback metric formulas are not defined (NaN/Infinity) on graphs with 0 or 1
nodes, since they divide without the `n ≤ 1` guard. -/
theorem C1_density_range_and_small_graphs (d : NetworkData) (h : IsSimpleNetwork d) :
    (d.nodes.length ≤ 1 → calculateDensity d.nodes.length d.edges.length = 0) ∧
    0 ≤ calculateDensity d.nodes.length d.edges.length ∧
    calculateDensity d.nodes.length d.edges.length ≤ 1 ∧
    (∀ e : Nat, (fallbackMetrics 0 e).density = none ∧ (fallbackMetrics 1 e).density = none ∧
      (fallbackMetrics 0 e).average_degree = none) := by
  refine ⟨?_, ?_, ?_, ?_⟩
  · intro hle
    simp [calculateDensity, hle]
  · by_cases hn : d.nodes.length ≤ 1
    · simp [calculateDensity, hn]
    · have hpos : (0 : ℚ) < (d.nodes.length : ℚ) * ((d.nodes.length : ℚ) - 1) := by
        have h2 : 2 ≤ d.nodes.length := by omega
        have : (2 : ℚ) ≤ (d.nodes.length : ℚ) := by exact_mod_cast h2
        nlinarith
      rw [calculateDensity, if_neg hn]
      positivity
  · by_cases hn : d.nodes.length ≤ 1
    · simp [calculateDensity, hn]
    · have h2 : 2 ≤ d.nodes.length := by omega
      have h2q : (2 : ℚ) ≤ (d.nodes.length : ℚ) := by exact_mod_cast h2
      have hpos : (0 : ℚ) < (d.nodes.length : ℚ) * ((d.nodes.length : ℚ) - 1) := by nlinarith
      rw [calculateDensity, if_neg hn, div_le_one hpos]
      exact two_mul_edges_le_rat h
  · intro e
    refine ⟨?_, ?_, ?_⟩ <;> simp [fallbackMetrics, jsDiv]

/-- C1 counterexample: on the empty network (`|V| = 0`) the fallback metrics
compute `0/0`, i.e. NaN — density and average degree are undefined, and the
same holds for the density of a 1-node network, contradicting the claim that
the metric computations are defined for graphs with 0 or 1 nodes. -/
theorem C1_fallback_undefined_on_small_graphs :
    (fallbackMetrics 0 0).density = none ∧ (fallbackMetrics 1 0).density = none ∧
    (fallbackMetrics 0 0).average_degree = none := by
  refine ⟨?_, ?_, ?_⟩ <;> simp [fallbackMetrics, jsDiv]

/-- C1 witness: the amended statement evaluated on the concrete triangle
network. -/
theorem C1_density_range_witness :
    0 ≤ calculateDensity triangleData.nodes.length triangleData.edges.length ∧
    calculateDensity triangleData.nodes.length triangleData.edges.length ≤ 1 :=
  ⟨(C1_density_range_and_small_graphs triangleData
      ⟨by decide, by decide, by decide, by decide⟩).2.1,
   (C1_density_range_and_small_graphs triangleData
      ⟨by decide, by decide, by decide, by decide⟩).2.2.1⟩

/-- C4: for every graph with at least 2 nodes the computed density equals
`2·|E| / (|V|·(|V|−1))` — both in the Dashboard `calculateDensity` and in the
API/NetworkView fallback — and for every graph with at least 1 node the
computed average degree equals `2·|E| / |V|`. -/
theorem C4_metric_formulas (n e : Nat) :
    (2 ≤ n → calculateDensity n e = (2 * e : ℚ) / ((n : ℚ) * ((n : ℚ) - 1)) ∧
      (fallbackMetrics n e).density = some ((2 * e : ℚ) / ((n : ℚ) * ((n : ℚ) - 1)))) ∧
    (1 ≤ n → (fallbackMetrics n e).average_degree = some ((2 * e : ℚ) / (n : ℚ))) := by
  constructor
  · intro h2
    have h2q : (2 : ℚ) ≤ (n : ℚ) := by exact_mod_cast h2
    have hden : (n : ℚ) * ((n : ℚ) - 1) ≠ 0 := by nlinarith
    constructor
    · rw [calculateDensity, if_neg (by omega)]
    · rw [fallbackMetrics]
      simp only [jsDiv, if_neg hden]
  · intro h1
    have hn : (n : ℚ) ≠ 0 := Nat.cast_ne_zero.mpr (by omega)
    rw [fallbackMetrics]
    simp only [jsDiv, if_neg hn]

/-- C4 witness: the formulas evaluated at `n = 3`, `e = 2`. -/
theorem C4_metric_formulas_witness :
    calculateDensity 3 2 = (2 * 2 : ℚ) / ((3 : ℚ) * ((3 : ℚ) - 1)) ∧
    (fallbackMetrics 3 2).average_degree = some ((2 * 2 : ℚ) / (3 : ℚ)) :=
  ⟨((C4_metric_formulas 3 2).1 (by norm_num)).1,
   (C4_metric_formulas 3 2).2 (by norm_num)⟩

theorem roundTo_zero (d : Nat) : roundTo d 0 = 0 := by
  have h0 : (0 : ℚ) * 10 ^ d + 1 / 2 = 1 / 2 := by ring
  rw [roundTo, h0]
  norm_num

/-- C3: amended. Comparing a snapshot (with at least one node and one edge)
with itself yields zero growth deltas and zero `new` counts, but the estimated
`removed` counts are `n − ⌊0.9·n⌋` nodes and `e − ⌊0.85·e⌋` edges, which are
nonzero for every nonempty snapshot. -/
theorem C3_self_compare (s : Snapshot) (rand : Nat → ℚ)
    (hn : 1 ≤ s.nodeCount) (he : 1 ≤ s.edgeCount) :
    (generateComparisonData s s rand).nodeGrowth = 0 ∧
    (generateComparisonData s s rand).edgeGrowth = 0 ∧
    (generateComparisonData s s rand).densityChange = 0 ∧
    (generateComparisonData s s rand).avgDegreeChange = 0 ∧
    (generateComparisonData s s rand).nodeGrowthPercent = some 0 ∧
    (generateComparisonData s s rand).edgeGrowthPercent = some 0 ∧
    (generateComparisonData s s rand).structuralChanges.newNodes = some 0 ∧
    (generateComparisonData s s rand).structuralChanges.newEdges = some 0 ∧
    (generateComparisonData s s rand).structuralChanges.removedNodes =
      some ((s.nodeCount : ℤ) - ⌊(s.nodeCount : ℚ) * (9/10)⌋) ∧
    (generateComparisonData s s rand).structuralChanges.removedEdges =
      some ((s.edgeCount : ℤ) - ⌊(s.edgeCount : ℚ) * (85/100)⌋) ∧
    (generateComparisonData s s rand).structuralChanges.removedNodes ≠ some 0 ∧
    (generateComparisonData s s rand).structuralChanges.removedEdges ≠ some 0 := by
  have hnq : (s.nodeCount : ℚ) ≠ 0 := Nat.cast_ne_zero.mpr (by omega)
  have heq : (s.edgeCount : ℚ) ≠ 0 := Nat.cast_ne_zero.mpr (by omega)
  have hminN : min (9/10 : ℚ) 1 = 9/10 := by norm_num
  have hminE : min (85/100 : ℚ) 1 = 85/100 := by norm_num
  have hposN : (0 : ℚ) < (s.nodeCount : ℚ) := Nat.cast_pos.mpr (by omega)
  have hposE : (0 : ℚ) < (s.edgeCount : ℚ) := Nat.cast_pos.mpr (by omega)
  have hfN : ⌊(s.nodeCount : ℚ) * (9/10)⌋ < (s.nodeCount : ℤ) := by
    rw [Int.floor_lt]
    push_cast
    nlinarith
  have hfE : ⌊(s.edgeCount : ℚ) * (85/100)⌋ < (s.edgeCount : ℤ) := by
    rw [Int.floor_lt]
    push_cast
    nlinarith
  refine ⟨?_, ?_, ?_, ?_, ?_, ?_, ?_, ?_, ?_, ?_, ?_, ?_⟩ <;>
      simp [generateComparisonData, jsDiv, hnq, heq, roundTo_zero, hminN, hminE]
  · intro hcontra
    linarith [hfN]
  · intro hcontra
    linarith [hfE]

/-- C3 counterexample: comparing the hard-coded community snapshot (197 nodes,
2756 edges) with itself reports 20 removed nodes and 414 removed edges, so the
`removed` sets are not empty even though all growth deltas are zero. -/
theorem C3_self_compare_not_empty :
    (generateComparisonData communitySnapshot communitySnapshot (fun _ => 0)).structuralChanges.removedNodes
      = some 20 ∧
    (generateComparisonData communitySnapshot communitySnapshot (fun _ => 0)).structuralChanges.removedEdges
      = some 414 ∧
    (generateComparisonData communitySnapshot communitySnapshot (fun _ => 0)).structuralChanges.removedNodes
      ≠ some 0 := by
  refine ⟨?_, ?_, ?_⟩ <;>
    norm_num [generateComparisonData, communitySnapshot, jsDiv, roundTo]

/-- C3 witness: the amended statement evaluated on the community snapshot. -/
theorem C3_self_compare_witness :
    (generateComparisonData communitySnapshot communitySnapshot (fun _ => 0)).nodeGrowth = 0 ∧
    (generateComparisonData communitySnapshot communitySnapshot (fun _ => 0)).densityChange = 0 :=
  ⟨(C3_self_compare communitySnapshot (fun _ => 0) (by norm_num [communitySnapshot])
      (by norm_num [communitySnapshot])).1,
   (C3_self_compare communitySnapshot (fun _ => 0) (by norm_num [communitySnapshot])
      (by norm_num [communitySnapshot])).2.2.1⟩

/-- C10: the snapshot-selection toggle preserves the invariant (at most two
selected, no duplicates); toggling a selected id removes it, toggling a new id
with fewer than two selected appends it, and toggling a new id with two
selected keeps the first and replaces the second. -/
theorem C10_toggle_invariant (prev : List String) (id : String)
    (hlen : prev.length ≤ 2) (hnd : prev.Nodup) :
    (toggleSnapshotSelection prev id).length ≤ 2 ∧
    (toggleSnapshotSelection prev id).Nodup ∧
    (id ∈ prev → toggleSnapshotSelection prev id = prev.filter (fun s => s ≠ id) ∧
      id ∉ toggleSnapshotSelection prev id) ∧
    (id ∉ prev → prev.length < 2 → toggleSnapshotSelection prev id = prev ++ [id]) ∧
    (id ∉ prev → prev.length = 2 →
      ∃ p0 p1, prev = [p0, p1] ∧ toggleSnapshotSelection prev id = [p0, id]) := by
  by_cases hmem : id ∈ prev
  · have heq : toggleSnapshotSelection prev id = prev.filter (fun s => s ≠ id) := by
      simp [toggleSnapshotSelection, hmem]
    refine ⟨?_, ?_, fun _ => ⟨heq, ?_⟩, fun h => absurd hmem h, fun h => absurd hmem h⟩
    · rw [heq]
      exact le_trans (List.length_filter_le _ _) hlen
    · rw [heq]
      exact hnd.filter _
    · rw [heq]
      intro hc
      have := (List.mem_filter.mp hc).2
      simp at this
  · by_cases hsmall : prev.length < 2
    · have heq : toggleSnapshotSelection prev id = prev ++ [id] := by
        simp [toggleSnapshotSelection, hmem, hsmall]
      refine ⟨?_, ?_, fun h => absurd h hmem, fun _ _ => heq, fun _ h2 => by omega⟩
      · rw [heq]; simp; omega
      · rw [heq]
        simp [List.nodup_append, hnd, hmem]
    · have h2 : prev.length = 2 := by omega
      obtain ⟨p0, p1, rfl⟩ : ∃ p0 p1, prev = [p0, p1] := by
        match prev, h2 with
        | [p0, p1], _ => exact ⟨p0, p1, rfl⟩
      have heq : toggleSnapshotSelection [p0, p1] id = [p0, id] := by
        simp [toggleSnapshotSelection, hmem, hsmall]
      have hidp0 : id ≠ p0 := by
        intro hc; exact hmem (hc ▸ List.mem_cons_self ..)
      refine ⟨?_, ?_, fun h => absurd h hmem, fun _ hc => by omega,
        fun _ _ => ⟨p0, p1, rfl, heq⟩⟩
      · rw [heq]; simp
      · rw [heq]
        have hp0id : ¬ p0 = id := fun hc => hidp0 hc.symm
        simp [List.nodup_cons, hp0id]

/-- C10 witness: the toggle evaluated on a concrete selection state. -/
theorem C10_toggle_invariant_witness :
    toggleSnapshotSelection ["a"] "b" = ["a"] ++ ["b"] ∧
    (toggleSnapshotSelection ["a", "b"] "c").Nodup :=
  ⟨(C10_toggle_invariant ["a"] "b" (by decide) (by decide)).2.2.2.1 (by decide) (by decide),
   (C10_toggle_invariant ["a", "b"] "c" (by decide) (by decide)).2.1⟩

theorem mem_groupFiltered {data : NetworkView.NetworkData}
    {filters : NetworkView.FiltersState} {gs : List Int} {n : NetworkView.Node}
    (h : n ∈ NetworkView.groupFiltered data filters gs) : n ∈ data.nodes := by
  unfold NetworkView.groupFiltered at h
  split at h
  · exact (List.mem_filter.mp h).1
  · exact h

/-- C9: the filtered graph satisfies referential integrity — every retained
edge's source and target ids belong to the retained node set — and filtering
only removes: retained nodes and edges are elements of the original data, the
original `data` value itself being untouched (the embedding is pure and the
code clones before filtering). -/
theorem C9_filter_integrity (data : NetworkView.NetworkData)
    (filters : NetworkView.FiltersState) (gs : List Int) :
    (∀ e ∈ (NetworkView.applyFilters data filters gs).edges,
      (∃ n ∈ (NetworkView.applyFilters data filters gs).nodes, n.id = e.source.endId) ∧
      (∃ n ∈ (NetworkView.applyFilters data filters gs).nodes, n.id = e.target.endId)) ∧
    (∀ n ∈ (NetworkView.applyFilters data filters gs).nodes, n ∈ data.nodes) ∧
    (∀ e ∈ (NetworkView.applyFilters data filters gs).edges, e ∈ data.edges) ∧
    (NetworkView.applyFilters data filters gs).id = data.id := by
  have hvalid : ∀ s : String, s ∈ NetworkView.validIds data filters gs →
      ∃ n ∈ (NetworkView.applyFilters data filters gs).nodes, n.id = s := by
    intro s hs
    obtain ⟨n, hn, hnid⟩ := List.mem_map.mp hs
    subst hnid
    refine ⟨n, ?_, rfl⟩
    apply List.mem_filter.mpr
    refine ⟨(List.mem_filter.mp hn).1, ?_⟩
    simpa [NetworkView.validIds] using hs
  refine ⟨?_, ?_, ?_, rfl⟩
  · intro e he
    have hcond := (List.mem_filter.mp he).2
    simp only [Bool.and_eq_true, decide_eq_true_eq] at hcond
    exact ⟨hvalid _ hcond.1, hvalid _ hcond.2⟩
  · intro n hn
    exact mem_groupFiltered (List.mem_filter.mp hn).1
  · intro e he
    exact (List.mem_filter.mp (List.mem_filter.mp he).1).1

theorem buildLinks_not_existing {keys : List String} {prob : Nat → ℚ} :
    ∀ (pairs : List (NetworkView.Node × NetworkView.Node)) (k : Nat)
      (p : NetworkView.PredictionLink),
      p ∈ NetworkView.buildLinks keys prob pairs k →
      (p.source ++ "-" ++ p.target) ∉ keys := by
  intro pairs
  induction pairs with
  | nil =>
    intro k p hp
    cases hp
  | cons ab rest ih =>
    intro k p hp
    obtain ⟨a, b⟩ := ab
    by_cases hk : (a.id ++ "-" ++ b.id) ∈ keys
    · rw [NetworkView.buildLinks, if_pos hk] at hp
      exact ih _ _ hp
    · rw [NetworkView.buildLinks, if_neg hk] at hp
      rcases List.mem_cons.mp hp with rfl | hp2
      · exact hk
      · exact ih _ _ hp2

theorem edge_keys_mem {es : List NetworkView.Edge} {e : NetworkView.Edge} (he : e ∈ es) :
    e.source.endId ++ "-" ++ e.target.endId ∈ NetworkView.existingEdgeKeys es ∧
    e.target.endId ++ "-" ++ e.source.endId ∈ NetworkView.existingEdgeKeys es := by
  constructor <;>
  · rw [NetworkView.existingEdgeKeys, List.mem_flatMap]
    exact ⟨e, he, by simp⟩

/-- C2: amended. The local prediction generator of `NetworkView` (used when
the API call fails) never returns a pair that is already an edge of the data
(in either orientation), returns at most 10 results (the code fixes the cut
at 10 rather than using a caller-supplied `k`), and its probabilities are
non-increasing across the sequence. -/
theorem C2_local_prediction (data : NetworkView.NetworkData) (prob : Nat → ℚ) :
    (∀ p ∈ NetworkView.topPredictions data prob, ∀ e ∈ data.edges,
      ¬((e.source.endId = p.source ∧ e.target.endId = p.target) ∨
        (e.source.endId = p.target ∧ e.target.endId = p.source))) ∧
    (NetworkView.topPredictions data prob).length ≤ 10 ∧
    (NetworkView.topPredictions data prob).Pairwise
      (fun a b => b.probability ≤ a.probability) := by
  refine ⟨?_, ?_, ?_⟩
  · intro p hp e he hbad
    have hp1 : p ∈ NetworkView.possibleLinks data prob :=
      List.mem_mergeSort.mp (List.take_subset 10 _ hp)
    have hnk := buildLinks_not_existing _ _ p hp1
    rcases hbad with ⟨h1, h2⟩ | ⟨h1, h2⟩
    · exact hnk (h1 ▸ h2 ▸ (edge_keys_mem he).1)
    · exact hnk (h1 ▸ h2 ▸ (edge_keys_mem he).2)
  · rw [NetworkView.topPredictions]
    simp [List.length_take]
  · have htrans : ∀ a b c : NetworkView.PredictionLink,
        decide (b.probability ≤ a.probability) = true →
        decide (c.probability ≤ b.probability) = true →
        decide (c.probability ≤ a.probability) = true := by
      intro a b c h1 h2
      simp only [decide_eq_true_eq] at h1 h2 ⊢
      exact le_trans h2 h1
    have htotal : ∀ a b : NetworkView.PredictionLink,
        (decide (b.probability ≤ a.probability) ||
         decide (a.probability ≤ b.probability)) = true := by
      intro a b
      simp only [Bool.or_eq_true, decide_eq_true_eq]
      exact le_total b.probability a.probability
    have hs := List.sorted_mergeSort htrans htotal (NetworkView.possibleLinks data prob)
    have hs2 := hs.imp (fun hab => by simpa using hab)
    exact List.Pairwise.sublist (List.take_sublist 10 _) hs2

/-- C2 counterexample: with the graph whose only edge joins "1" and "2", the
mock `predictLinks` fallback (which never consults the graph) returns exactly
the pair ("1","2") — an existing edge — and on another draw sequence its
scores increase, so they are not non-increasing. -/
theorem C2_mock_returns_existing_edge :
    (mockPredictLinks 1 [0, 1] [1/2]).map (fun p => (p.source, p.target)) = [("1", "2")] ∧
    mockPairNetwork.edges.map
      (fun e => (e.source.endId, e.target.endId)) = [("1", "2")] ∧
    ¬ (mockPredictLinks 2 [0, 1, 2, 3] [1/10, 9/10]).Pairwise
        (fun a b => b.probability ≤ a.probability) := by
  have hlist : mockPredictLinks 2 [0, 1, 2, 3] [1/10, 9/10] =
      [⟨"1", "2", roundTo 2 (1/10)⟩, ⟨"3", "4", roundTo 2 (9/10)⟩] := rfl
  refine ⟨rfl, rfl, ?_⟩
  intro hpw
  rw [hlist] at hpw
  have h := (List.pairwise_cons.mp hpw).1 _ (List.mem_cons_self ..)
  norm_num [roundTo] at h

theorem indexPairs_mem :
    ∀ {l : List NetworkView.Node} {p : NetworkView.Node × NetworkView.Node},
      p ∈ NetworkView.indexPairs l → p.1 ∈ l ∧ p.2 ∈ l := by
  intro l
  induction l with
  | nil =>
    intro p hp
    cases hp
  | cons x xs ih =>
    intro p hp
    rw [NetworkView.indexPairs, List.mem_append] at hp
    rcases hp with hp | hp
    · obtain ⟨y, hy, rfl⟩ := List.mem_map.mp hp
      exact ⟨List.mem_cons_self .., List.mem_cons_of_mem _ hy⟩
    · obtain ⟨h1, h2⟩ := ih hp
      exact ⟨List.mem_cons_of_mem _ h1, List.mem_cons_of_mem _ h2⟩

theorem indexPairs_ne_id {l : List NetworkView.Node}
    (hnd : (l.map NetworkView.Node.id).Nodup) :
    ∀ {p : NetworkView.Node × NetworkView.Node},
      p ∈ NetworkView.indexPairs l → p.1.id ≠ p.2.id := by
  induction l with
  | nil =>
    intro p hp
    cases hp
  | cons x xs ih =>
    intro p hp
    rw [List.map_cons, List.nodup_cons] at hnd
    rw [NetworkView.indexPairs, List.mem_append] at hp
    rcases hp with hp | hp
    · obtain ⟨y, hy, rfl⟩ := List.mem_map.mp hp
      intro hc
      exact hnd.1 (hc ▸ List.mem_map_of_mem NetworkView.Node.id hy)
    · exact ih hnd.2 hp

theorem indexPairs_eq_nil {l : List NetworkView.Node} (h : l.length ≤ 1) :
    NetworkView.indexPairs l = [] := by
  match l, h with
  | [], _ => rfl
  | [x], _ => rfl

theorem buildLinks_eq_nil {keys : List String} {prob : Nat → ℚ} :
    ∀ (pairs : List (NetworkView.Node × NetworkView.Node)) (k : Nat),
      (∀ ab ∈ pairs, ((ab : _ × _).1.id ++ "-" ++ ab.2.id) ∈ keys) →
      NetworkView.buildLinks keys prob pairs k = [] := by
  intro pairs
  induction pairs with
  | nil =>
    intro k _
    rfl
  | cons ab rest ih =>
    intro k hall
    obtain ⟨a, b⟩ := ab
    have hk := hall (a, b) (List.mem_cons_self ..)
    rw [NetworkView.buildLinks, if_pos hk]
    exact ih _ (fun x hx => hall x (List.mem_cons_of_mem _ hx))

/-- C5: amended. The local prediction path returns the empty sequence (not an
error) for a 1-node graph and for every nonempty graph with unique node ids
in which every pair of distinct nodes is already adjacent; but for a 0-node
graph the code reports the error message `无法生成链接预测，缺少网络数据`
instead of an empty sequence. -/
theorem C5_local_empty_cases (data : NetworkView.NetworkData) (prob : Nat → ℚ) :
    (data.nodes.length = 1 → NetworkView.handlePredictLocal data prob = .ok []) ∧
    (0 < data.nodes.length → (data.nodes.map NetworkView.Node.id).Nodup →
      (∀ a ∈ data.nodes, ∀ b ∈ data.nodes, a.id ≠ b.id →
        ∃ e ∈ data.edges,
          (e.source.endId = a.id ∧ e.target.endId = b.id) ∨
          (e.source.endId = b.id ∧ e.target.endId = a.id)) →
      NetworkView.handlePredictLocal data prob = .ok []) ∧
    (data.nodes = [] → NetworkView.handlePredictLocal data prob =
      .error "无法生成链接预测，缺少网络数据") := by
  refine ⟨?_, ?_, ?_⟩
  · intro h1
    have hpairs : (NetworkView.groupsOf data.nodes).flatMap
        (fun g => NetworkView.indexPairs (NetworkView.nodesInGroup data.nodes g)) = [] := by
      apply List.flatMap_eq_nil_iff.mpr
      intro g _
      apply indexPairs_eq_nil
      calc (NetworkView.nodesInGroup data.nodes g).length
          ≤ data.nodes.length := List.length_filter_le _ _
        _ ≤ 1 := h1.le
    rw [NetworkView.handlePredictLocal, if_pos (by omega)]
    rw [NetworkView.topPredictions, NetworkView.possibleLinks, hpairs]
    simp [NetworkView.buildLinks]
  · intro hpos hnd hadj
    have hpairs : NetworkView.possibleLinks data prob = [] := by
      rw [NetworkView.possibleLinks]
      apply buildLinks_eq_nil
      intro ab hab
      obtain ⟨g, _, habg⟩ := List.mem_flatMap.mp hab
      have hsub : (NetworkView.nodesInGroup data.nodes g).Sublist data.nodes :=
        List.filter_sublist _
      have hndg : ((NetworkView.nodesInGroup data.nodes g).map NetworkView.Node.id).Nodup :=
        List.Nodup.sublist (hsub.map NetworkView.Node.id) hnd
      have hne := indexPairs_ne_id hndg habg
      obtain ⟨ha, hb⟩ := indexPairs_mem habg
      obtain ⟨e, he, hor⟩ :=
        hadj ab.1 (hsub.subset ha) ab.2 (hsub.subset hb) hne
      rcases hor with ⟨h1, h2⟩ | ⟨h1, h2⟩
      · exact h1 ▸ h2 ▸ (edge_keys_mem he).1
      · exact h1 ▸ h2 ▸ (edge_keys_mem he).2
    rw [NetworkView.handlePredictLocal, if_pos hpos]
    rw [NetworkView.topPredictions, hpairs]
    simp
  · intro h0
    rw [NetworkView.handlePredictLocal, if_neg (by simp [h0])]

/-- C5 counterexample: on the empty network the local prediction path reports
an error message instead of returning an empty sequence. -/
theorem C5_empty_network_error :
    NetworkView.handlePredictLocal ⟨none, [], []⟩ (fun _ => 0) =
      .error "无法生成链接预测，缺少网络数据" := rfl

/-- C5 witness: the amended statement on a 1-node network and on the complete
2-node network. -/
theorem C5_local_empty_cases_witness :
    NetworkView.handlePredictLocal oneNodeNetwork (fun _ => 0) = .ok [] ∧
    NetworkView.handlePredictLocal mockPairNetwork (fun _ => 0) = .ok [] :=
  ⟨(C5_local_empty_cases oneNodeNetwork (fun _ => 0)).1 rfl,
   (C5_local_empty_cases mockPairNetwork (fun _ => 0)).2.1 (by decide) (by decide)
     (by decide)⟩

theorem mergeSort_singleton {α : Type} (le : α → α → Bool) (x : α) :
    List.mergeSort [x] le = [x] :=
  List.perm_singleton.mp (List.mergeSort_perm [x] le)

/-- C6: on the triangle-minus-one graph (nodes A, B, C; edges A–B and B–C),
the spec-modelled `predictLinks(graph, 1)` returns exactly the pair (A, C)
with common-neighbors score 1 (B is the single shared neighbor), and the
density computed by the source formula is 2/3. -/
theorem C6_triangle_scenario :
    specPredictLinks triangleData 1 = [⟨"A", "C", 1⟩] ∧
    calculateDensity triangleData.nodes.length triangleData.edges.length = 2/3 := by
  constructor
  · have hc : (candidatePairs triangleData).map
        (fun p => SpecPrediction.mk p.1 p.2 (commonNeighborsScore triangleData p.1 p.2)) =
        [⟨"A", "C", 1⟩] := by decide
    rw [specPredictLinks, hc, mergeSort_singleton]
    rfl
  · norm_num [calculateDensity, triangleData]

theorem genEdgeExists_false {es : List GenEdge} {s t : Nat}
    (h : genEdgeExists es s t = false) :
    ∀ e ∈ es, ¬((e.source = s ∧ e.target = t) ∨ (e.source = t ∧ e.target = s)) := by
  intro e he
  simp only [genEdgeExists, List.any_eq_false] at h
  have he2 := h e he
  simp only [Bool.or_eq_true, Bool.and_eq_true, beq_iff_eq] at he2
  tauto

theorem append_edge_inv {acc : List GenEdge} {s t w : Nat}
    (h1 : NoSelfLoopE acc) (h2 : NoMultiEdgeE acc)
    (hst : s ≠ t) (hex : genEdgeExists acc s t = false) :
    NoSelfLoopE (acc ++ [⟨s, t, w⟩]) ∧ NoMultiEdgeE (acc ++ [⟨s, t, w⟩]) := by
  constructor
  · intro e he
    rcases List.mem_append.mp he with he | he
    · exact h1 e he
    · rcases List.mem_singleton.mp he with rfl
      exact hst
  · rw [NoMultiEdgeE, List.pairwise_append]
    refine ⟨h2, List.pairwise_singleton _ _, ?_⟩
    intro a ha b hb
    rcases List.mem_singleton.mp hb with rfl
    simpa using genEdgeExists_false hex a ha

theorem findOtherId_ne {n source : Nat} :
    ∀ {stream : List Nat} {t : Nat} {rest : List Nat},
      findOtherId n source stream = some (t, rest) → t ≠ source := by
  intro stream
  induction stream with
  | nil =>
    intro t rest h
    cases h
  | cons s ss ih =>
    intro t rest h
    rw [findOtherId] at h
    split at h
    · exact ih h
    · rename_i hne
      cases h
      exact hne

theorem randomEdgesLoop_inv (n : Nat) :
    ∀ (k : Nat) (stream : List Nat) (acc : List GenEdge),
      NoSelfLoopE acc → NoMultiEdgeE acc →
      NoSelfLoopE (randomEdgesLoop n k stream acc) ∧
      NoMultiEdgeE (randomEdgesLoop n k stream acc) := by
  intro k
  induction k with
  | zero =>
    intro stream acc h1 h2
    exact ⟨h1, h2⟩
  | succ k ih =>
    intro stream acc h1 h2
    match stream with
    | [] => exact ⟨h1, h2⟩
    | s :: rest =>
      rw [randomEdgesLoop]
      cases hfind : findOtherId n (drawId n s) rest with
      | none => exact ⟨h1, h2⟩
      | some tr =>
        obtain ⟨target, rest2⟩ := tr
        match rest2 with
        | [] => exact ⟨h1, h2⟩
        | w :: rest3 =>
          by_cases hex : genEdgeExists acc (drawId n s) target = true
          · simp only [hex, if_true]
            exact ih _ _ h1 h2
          · have hexf : genEdgeExists acc (drawId n s) target = false :=
              Bool.eq_false_iff.mpr hex
            simp only [hexf, Bool.false_eq_true, if_false]
            have hne : target ≠ drawId n s := findOtherId_ne hfind
            obtain ⟨g1, g2⟩ := append_edge_inv h1 h2 (fun hc => hne hc.symm) hexf
            exact ih _ _ g1 g2

theorem communityEdgesLoop_inv (nodes : List GenNode) :
    ∀ (k : Nat) (stream : List Nat) (acc : List GenEdge),
      NoSelfLoopE acc → NoMultiEdgeE acc →
      NoSelfLoopE (communityEdgesLoop nodes k stream acc) ∧
      NoMultiEdgeE (communityEdgesLoop nodes k stream acc) := by
  intro k
  induction k with
  | zero =>
    intro stream acc h1 h2
    exact ⟨h1, h2⟩
  | succ k ih =>
    intro stream acc h1 h2
    match stream with
    | [] => exact ⟨h1, h2⟩
    | [s] => exact ⟨h1, h2⟩
    | [s, c] => exact ⟨h1, h2⟩
    | s :: c :: t :: rest =>
      cases hpick : pickNode nodes s with
      | none =>
        simp only [communityEdgesLoop, hpick]
        exact ⟨h1, h2⟩
      | some src =>
        cases hpick2 : pickNode (communityPool nodes src c) t with
        | none =>
          simp only [communityEdgesLoop, hpick, hpick2]
          exact ⟨h1, h2⟩
        | some tgt =>
          by_cases hid : src.id = tgt.id
          · simp only [communityEdgesLoop, hpick, hpick2, if_pos hid]
            exact ih _ _ h1 h2
          · by_cases hex : genEdgeExists acc src.id tgt.id = true
            · simp only [communityEdgesLoop, hpick, hpick2, if_neg hid, hex, if_true]
              exact ih _ _ h1 h2
            · have hexf : genEdgeExists acc src.id tgt.id = false :=
                Bool.eq_false_iff.mpr hex
              match rest with
              | [] =>
                simp only [communityEdgesLoop, hpick, hpick2, if_neg hid, hexf,
                  Bool.false_eq_true, if_false]
                exact ⟨h1, h2⟩
              | w :: rest2 =>
                simp only [communityEdgesLoop, hpick, hpick2, if_neg hid, hexf,
                  Bool.false_eq_true, if_false]
                obtain ⟨g1, g2⟩ := append_edge_inv h1 h2 hid hexf
                exact ih _ _ g1 g2

/-- C7: the sample-network builders produce no self-loop and no multi-edge:
the hard-coded 15-node sample network, and — for every node count, community
count and randomness stream — the random and community generators. -/
theorem C7_builders_no_selfloop_no_multiedge :
    (NoSelfLoopE sampleNetworkEdges ∧ NoMultiEdgeE sampleNetworkEdges) ∧
    (∀ (n : Nat) (stream : List Nat),
      NoSelfLoopE (generateRandomNetworkEdges n stream) ∧
      NoMultiEdgeE (generateRandomNetworkEdges n stream)) ∧
    (∀ (n c : Nat) (stream : List Nat),
      NoSelfLoopE (generateCommunityNetworkEdges n c stream) ∧
      NoMultiEdgeE (generateCommunityNetworkEdges n c stream)) := by
  refine ⟨⟨?_, ?_⟩, ?_, ?_⟩
  · unfold NoSelfLoopE
    decide
  · unfold NoMultiEdgeE
    decide
  · intro n stream
    exact randomEdgesLoop_inv n _ stream []
      (by intro e he; cases he) List.Pairwise.nil
  · intro n c stream
    exact communityEdgesLoop_inv _ _ stream []
      (by intro e he; cases he) List.Pairwise.nil

theorem buildGraph_ok_nodes {ns : List RawNode} {es : List RawEdge} {g : BuiltGraph}
    (h : buildGraph ns es = .ok g) :
    g.nodes = ns.map (fun n => ⟨assignId n.externalId, n.label⟩) := by
  simp only [buildGraph] at h
  split at h
  · cases h
  · split at h
    · cases h
    · split at h
      · cases h
      · split at h
        · cases h
        · cases h
          rfl

/-- C8: identity assignment is deterministic — equal raw identifiers receive
equal stable ids, two `buildGraph` runs on identical raw input yield graphs
with identical node and edge membership, and (the load-bearing consequence
for cross-snapshot diffs) a raw entity present in two snapshots receives the
same stable id in both built graphs. -/
theorem C8_identity_determinism :
    (∀ x y : String, x = y → assignId x = assignId y) ∧
    (∀ (ns : List RawNode) (es : List RawEdge) (g₁ g₂ : BuiltGraph),
      buildGraph ns es = .ok g₁ → buildGraph ns es = .ok g₂ →
      g₁.nodes = g₂.nodes ∧ g₁.edges = g₂.edges) ∧
    (∀ (nsA : List RawNode) (esA : List RawEdge) (nsB : List RawNode)
      (esB : List RawEdge) (gA gB : BuiltGraph) (x : String),
      buildGraph nsA esA = .ok gA → buildGraph nsB esB = .ok gB →
      (∃ n ∈ nsA, n.externalId = x) → (∃ n ∈ nsB, n.externalId = x) →
      assignId x ∈ gA.nodes.map BuiltNode.id ∧
      assignId x ∈ gB.nodes.map BuiltNode.id) := by
  refine ⟨?_, ?_, ?_⟩
  · intro x y h
    rw [h]
  · intro ns es g₁ g₂ h₁ h₂
    rw [h₁] at h₂
    cases h₂
    exact ⟨rfl, rfl⟩
  · intro nsA esA nsB esB gA gB x hA hB hxA hxB
    obtain ⟨nA, hnA, rfl⟩ := hxA
    obtain ⟨nB, hnB, hxB2⟩ := hxB
    constructor
    · rw [buildGraph_ok_nodes hA, List.map_map]
      exact List.mem_map.mpr ⟨nA, hnA, rfl⟩
    · rw [buildGraph_ok_nodes hB, List.map_map]
      exact List.mem_map.mpr ⟨nB, hnB, by simp [hxB2]⟩

/-- C8 witness: a concrete one-node ingestion run twice; the shared raw id
receives the same stable id in both runs. -/
theorem C8_identity_determinism_witness :
    assignId "alice" ∈ aliceGraph.nodes.map BuiltNode.id ∧
    assignId "alice" ∈ aliceGraph.nodes.map BuiltNode.id :=
  C8_identity_determinism.2.2 [⟨"alice", "Alice"⟩] [] [⟨"alice", "Alice"⟩] []
    aliceGraph aliceGraph "alice" rfl rfl
    ⟨⟨"alice", "Alice"⟩, List.mem_singleton.mpr rfl, rfl⟩
    ⟨⟨"alice", "Alice"⟩, List.mem_singleton.mpr rfl, rfl⟩

end SNA
